import Mathlib

/-!
# Verification of the variflight MCP proxy token pool

A shallow embedding of the token-pool manager (`src/tools/variflight.py`,
class `TokenManager`), the MCP proxy retry loop (`MCPProxy.proxy_request`),
header preparation (`MCPProxy._prepare_headers`), account-file loading
(`TokenManager.load_tokens`), and the special-request dispatch of the
route handler in `src/main.py`, together with theorems about their
behaviour.

Python sets are modelled as `Finset String`; Python lists as `List String`
(Python `list.remove` removes the first occurrence, `List.erase` does the
same).  The outcome of a `get_next_token` call is the returned
`Option String` paired with the successor state.
-/

namespace Variflight

/-- State of `TokenManager` (`src/tools/variflight.py`): the mutable token
list, the round-robin cursor `current_index`, the set of temporarily
failed tokens and the set of permanently blacklisted tokens. -/
structure TokenManager where
  tokens : List String
  current_index : Nat
  failed_tokens : Finset String
  blacklisted_tokens : Finset String
deriving DecidableEq

/-- The list comprehension
`[t for t in self.tokens if t not in self.failed_tokens and t not in self.blacklisted_tokens]`
used by `get_next_token` and `get_stats`. -/
def availableTokens (tm : TokenManager) : List String :=
  tm.tokens.filter (fun t =>
    decide (t ∉ tm.failed_tokens ∧ t ∉ tm.blacklisted_tokens))

/-- The list comprehension
`[t for t in self.tokens if t not in self.blacklisted_tokens]`
used by `get_next_token` after clearing the temporary-failure set. -/
def nonBlacklistedTokens (tm : TokenManager) : List String :=
  tm.tokens.filter (fun t => decide (t ∉ tm.blacklisted_tokens))

/-- `TokenManager.get_next_token`: returns `None` on an empty token list;
otherwise filters out failed and blacklisted tokens; if that filter is
empty, clears `failed_tokens` and refilters by the blacklist alone
(returning `None` if still empty); finally indexes the filtered list at
`current_index % len` and increments the cursor. -/
def get_next_token (tm : TokenManager) : Option String × TokenManager :=
  if tm.tokens.isEmpty then (none, tm)
  else
    let available := availableTokens tm
    if available.isEmpty then
      let tmr : TokenManager := { tm with failed_tokens := ∅ }
      let available2 := nonBlacklistedTokens tm
      if available2.isEmpty then (none, tmr)
      else
        let token := available2.getD (tm.current_index % available2.length) ""
        (some token, { tmr with current_index := tm.current_index + 1 })
    else
      let token := available.getD (tm.current_index % available.length) ""
      (some token, { tm with current_index := tm.current_index + 1 })

/-- `TokenManager.mark_token_failed`: adds the token to the
temporary-failure set. -/
def mark_token_failed (tm : TokenManager) (token : String) : TokenManager :=
  { tm with failed_tokens := insert token tm.failed_tokens }

/-- `TokenManager.blacklist_token`: a no-op when the token is already
blacklisted; otherwise adds it to `blacklisted_tokens`, removes it (first
occurrence) from the `tokens` list when present, and discards it from
`failed_tokens`.  (The synchronous `save_blacklist` file write carries no
pool state and is not modelled.) -/
def blacklist_token (tm : TokenManager) (token : String) : TokenManager :=
  if token ∈ tm.blacklisted_tokens then tm
  else
    { tm with
      blacklisted_tokens := insert token tm.blacklisted_tokens
      tokens := tm.tokens.erase token
      failed_tokens := tm.failed_tokens.erase token }

/-- The dictionary returned by `TokenManager.get_stats`. -/
structure Stats where
  total_loaded_tokens : Nat
  temporarily_failed_tokens : Nat
  permanently_blacklisted_tokens : Nat
  available_tokens : Nat
deriving DecidableEq, Repr

/-- `TokenManager.get_stats`: lengths of the token list, the two sets, and
of the availability filter. -/
def get_stats (tm : TokenManager) : Stats :=
  { total_loaded_tokens := tm.tokens.length
    temporarily_failed_tokens := tm.failed_tokens.card
    permanently_blacklisted_tokens := tm.blacklisted_tokens.card
    available_tokens := (availableTokens tm).length }

/-- The successor state of a `get_next_token` call. -/
def gntState (tm : TokenManager) : TokenManager := (get_next_token tm).2

/-- The state after `n` successive `get_next_token` calls. -/
def gntIter (tm : TokenManager) : Nat → TokenManager
  | 0 => tm
  | n + 1 => gntIter (gntState tm) n

/-- A `TokenManager` as `__init__` leaves it after `load_blacklist` and
`load_tokens`: the loaded token list, cursor `0`, no temporary failures,
and the blacklist read from `blacklist.pkl`. -/
def freshManager (blacklisted : Finset String) (tokens : List String) : TokenManager :=
  ⟨tokens, 0, ∅, blacklisted⟩

/-- One of the three mutating entry points of `TokenManager` used by
`MCPProxy.proxy_request`. -/
inductive PoolOp where
  | next
  | fail (token : String)
  | black (token : String)
deriving DecidableEq

/-- Apply a single pool operation (for `next` only the state change is
kept). -/
def applyOp (tm : TokenManager) : PoolOp → TokenManager
  | .next => gntState tm
  | .fail t => mark_token_failed tm t
  | .black t => blacklist_token tm t

/-- Apply a sequence of pool operations in order. -/
def applyOps (tm : TokenManager) : List PoolOp → TokenManager
  | [] => tm
  | op :: ops => applyOps (applyOp tm op) ops

/-- An operation sequence as `MCPProxy.proxy_request` issues it:
`mark_token_failed` is only invoked on a token that is not currently
blacklisted (it is always the token just returned by `get_next_token`,
and `get_next_token` never hands out a blacklisted token). -/
def validOps (tm : TokenManager) : List PoolOp → Bool
  | [] => true
  | op :: ops =>
    (match op with
     | .fail t => decide (t ∉ tm.blacklisted_tokens)
     | _ => true) && validOps (applyOp tm op) ops

/-- The fresh pool of the round-robin scenario: three valid tokens in file
order, empty blacklist. -/
def threeTokenPool : TokenManager := freshManager ∅ ["sk-a", "sk-b", "sk-c"]

/-! ## Python string primitives

The Python string methods used by the proxy (`str.strip`, `str.split('|')`,
`str.startswith`, `str.lower`, substring `in`) are embedded as explicit
computable functions on the character lists of Lean strings. -/

/-- Python `s.lower()` (ASCII case folding, as used on header names). -/
def pyLower (s : String) : String := ⟨s.data.map Char.toLower⟩

/-- Python `s.strip()`: removes leading and trailing whitespace. -/
def pyStrip (s : String) : String :=
  ⟨((s.data.dropWhile Char.isWhitespace).reverse.dropWhile Char.isWhitespace).reverse⟩

/-- Python `s.split('|')` on character lists: always returns at least one
group, and one more group per separator. -/
def splitPipe : List Char → List (List Char)
  | [] => [[]]
  | c :: rest =>
    match splitPipe rest, c == '|' with
    | r, true => [] :: r
    | [], false => [[c]]
    | g :: gs, false => (c :: g) :: gs

/-- Python `s.split('|')`. -/
def pySplitOnPipe (s : String) : List String := (splitPipe s.data).map String.mk

/-- Python `s.startswith(pre)`. -/
def pyStartsWith (s pre : String) : Bool := pre.data.isPrefixOf s.data

/-! ## Account-file loading (`TokenManager.load_tokens`) -/

/-- One iteration of the `load_tokens` line loop: the stripped line yields
`some token` when it is nonempty, splits on `|` into at least three parts,
and its last part starts with `sk-` and is not blacklisted; any other line
is skipped (`none`). -/
def parse_account_line (blacklisted : Finset String) (line : String) : Option String :=
  let s := pyStrip line
  if s = "" then none
  else
    let parts := pySplitOnPipe s
    if 3 ≤ parts.length then
      let token := parts.getLastD ""
      if pyStartsWith token "sk-" then
        if token ∈ blacklisted then none else some token
      else none
    else none

/-- `TokenManager.load_tokens` applied to the account-file lines: collects
the qualifying tokens in file order and raises `ValueError` when none
qualify. -/
def load_tokens (blacklisted : Finset String) (lines : List String) :
    Except String (List String) :=
  let toks := lines.filterMap (parse_account_line blacklisted)
  if toks.isEmpty then Except.error "ValueError: no valid token found"
  else Except.ok toks

/-! ## Header preparation (`MCPProxy._prepare_headers`) -/

/-- A Python `dict` of headers: an association list of case-sensitive keys
to values, in insertion order, with unique keys. -/
abbrev HDict := List (String × String)

/-- Python `d.get(k)`: the value of the first entry with key `k`. -/
def dget (d : HDict) (k : String) : Option String :=
  (d.find? (fun p => p.1 == k)).map Prod.snd

/-- Python `k in d`. -/
def dmem (d : HDict) (k : String) : Bool :=
  d.any (fun p => p.1 == k)

/-- Python `d[k] = v`: updates the entry in place when the key exists,
otherwise appends a new entry. -/
def dset (d : HDict) (k v : String) : HDict :=
  if dmem d k then d.map (fun p => if p.1 == k then (p.1, v) else p)
  else d ++ [(k, v)]

/-- The `skip_headers` set of `MCPProxy.__init__`. -/
def skip_headers : List String :=
  ["host", "content-length", "connection", "upgrade",
   "proxy-connection", "proxy-authorization", "te", "trailers"]

/-- Python substring containment `pat in s`. -/
def strContains (s pat : String) : Bool :=
  decide (List.IsInfix pat.toList s.toList)

/-- First block of `MCPProxy._prepare_headers`: forward the original
headers except those whose lower-cased key is in `skip_headers`. -/
def forward_headers (original : HDict) : HDict :=
  original.filter (fun p => !(skip_headers.contains (pyLower p.1)))

/-- Second block of `MCPProxy._prepare_headers`: when no `accept` key
exists, set `Accept` to `application/json, text/event-stream`; when an
`accept` value exists but lacks the substring `text/event-stream`, set
`Accept` to that value with `, text/event-stream` appended. -/
def ensure_accept (headers : HDict) : HDict :=
  if !(dmem headers "accept") then
    dset headers "Accept" "application/json, text/event-stream"
  else if !(strContains ((dget headers "accept").getD "") "text/event-stream") then
    dset headers "Accept" (((dget headers "accept").getD "") ++ ", text/event-stream")
  else headers

/-- Third block of `MCPProxy._prepare_headers`: set a default `User-Agent`
when no `user-agent` key exists. -/
def ensure_user_agent (headers : HDict) : HDict :=
  if !(dmem headers "user-agent") then
    dset headers "User-Agent" "MCP-Proxy/1.0.0"
  else headers

/-- `MCPProxy._prepare_headers`: the three blocks in sequence. -/
def prepare_headers (original : HDict) : HDict :=
  ensure_user_agent (ensure_accept (forward_headers original))

/-! ## The proxy retry loop (`MCPProxy.proxy_request`) -/

/-- Outcome of one `proxy_request` run: a 200 response obtained with some
token, or a raised `HTTPException` with its status and detail. -/
inductive ProxyResult where
  | ok (token : String)
  | err (status : Nat) (detail : String)
deriving DecidableEq

/-- The HTTP status the caller observes: 200 for a returned response, the
exception's status otherwise. -/
def resultStatus : ProxyResult → Nat
  | .ok _ => 200
  | .err s _ => s

/-- The retry loop of `MCPProxy.proxy_request`.  The upstream server is a
function `up` from the attempt index and the api-key token to the response
status; `none` models an `aiohttp.ClientError`.  `fuel` is the number of
loop iterations left (`max_retries - attempt`); when it reaches zero the
final `HTTPException(503)` after the loop is raised.  A 200 response is
returned; 401/403 blacklists the token and retries; 429 marks it
temporarily failed and retries; any other status raises it on the last
attempt and otherwise retries; a network error raises 503 on the last
attempt and otherwise retries. -/
def proxy_loop (up : Nat → String → Option Nat) (max_retries : Nat) :
    Nat → Nat → TokenManager → ProxyResult × TokenManager
  | 0, _, tm => (.err 503 "all retries failed", tm)
  | fuel + 1, attempt, tm =>
    match get_next_token tm with
    | (none, tm1) => (.err 503 "no available token", tm1)
    | (some token, tm1) =>
      match up attempt token with
      | none =>
        if attempt = max_retries - 1 then (.err 503 "network connection error", tm1)
        else proxy_loop up max_retries fuel (attempt + 1) tm1
      | some status =>
        if status = 200 then (.ok token, tm1)
        else if status = 401 ∨ status = 403 then
          proxy_loop up max_retries fuel (attempt + 1) (blacklist_token tm1 token)
        else if status = 429 then
          proxy_loop up max_retries fuel (attempt + 1) (mark_token_failed tm1 token)
        else if attempt = max_retries - 1 then
          (.err status "upstream server error", tm1)
        else proxy_loop up max_retries fuel (attempt + 1) tm1

/-- `MCPProxy.proxy_request` with `max_retries` attempts (`for attempt in
range(max_retries)` starting at attempt 0). -/
def proxy_request (up : Nat → String → Option Nat) (max_retries : Nat)
    (tm : TokenManager) : ProxyResult × TokenManager :=
  proxy_loop up max_retries max_retries 0 tm

/-! ## Special-request dispatch of the route handler (`src/main.py`) -/

/-- JSON values as produced by `json.loads`. -/
inductive Jv where
  | null
  | bool (b : Bool)
  | num (n : Int)
  | str (s : String)
  | arr (elems : List Jv)
  | obj (fields : List (String × Jv))

/-- Python `request_data.get(key)` on a parsed JSON object. -/
def jget (fields : List (String × Jv)) (key : String) : Option Jv :=
  (fields.find? (fun p => p.1 == key)).map Prod.snd

/-- Outcome of the two steps `body.decode('utf-8')` then `json.loads` run
on a nonempty request body: the bytes are not valid UTF-8
(`UnicodeDecodeError`), they decode but are not valid JSON
(`json.JSONDecodeError`), or they parse to a JSON value. -/
inductive BodyParse where
  | notUtf8
  | notJson
  | parsed (v : Jv)

/-- Outcome of the special-request check in the route handler
`proxy_request` of `src/main.py`: an immediate JSON response, an immediate
empty-body response, an `HTTPException` with the given status, or
fall-through to upstream proxying. -/
inductive RouteResponse where
  | json (status : Nat) (body : Jv)
  | empty (status : Nat)
  | httpError (status : Nat)
  | proxied

/-- The special-request dispatch of the route handler, fed the outcome of
`json.loads(body.decode('utf-8'))`.  A parsed dict whose `method` is the
string `ping` is answered directly with HTTP 200 and the JSON-RPC result
object (echoing `request_data.get('id')`, `null` when absent);
`notifications/initialized` with an empty 202; another method value, a
dict without `method`, a non-dict value (`AttributeError` on `.get`) or a
`json.JSONDecodeError` are caught by the inner `except` and fall through
to normal proxying.  A `UnicodeDecodeError` from `body.decode('utf-8')`,
however, is not in the inner except tuple: it escapes to the outer
`except Exception`, which raises `HTTPException(500)`. -/
def handle_special (body : BodyParse) : RouteResponse :=
  match body with
  | .notUtf8 => .httpError 500
  | .notJson => .proxied
  | .parsed (.obj fields) =>
    match jget fields "method" with
    | some (.str m) =>
      if m = "ping" then
        .json 200 (.obj [("jsonrpc", .str "2.0"),
          ("id", (jget fields "id").getD .null), ("result", .obj [])])
      else if m = "notifications/initialized" then
        .empty 202
      else .proxied
    | _ => .proxied
  | .parsed _ => .proxied

/-! ## Basic lemmas about `get_next_token` -/

theorem mem_availableTokens {tm : TokenManager} {a : String} :
    a ∈ availableTokens tm ↔
      a ∈ tm.tokens ∧ a ∉ tm.failed_tokens ∧ a ∉ tm.blacklisted_tokens := by
  simp [availableTokens, List.mem_filter]

theorem mem_nonBlacklistedTokens {tm : TokenManager} {a : String} :
    a ∈ nonBlacklistedTokens tm ↔ a ∈ tm.tokens ∧ a ∉ tm.blacklisted_tokens := by
  simp [nonBlacklistedTokens, List.mem_filter]

theorem getD_mod_mem {l : List String} (h : l ≠ []) (i : Nat) :
    l.getD (i % l.length) "" ∈ l := by
  have hm : i % l.length < l.length := Nat.mod_lt _ (List.length_pos.mpr h)
  rw [List.getD_eq_getElem _ _ hm]
  exact List.getElem_mem _

theorem gnt_tokens_eq (tm : TokenManager) :
    (get_next_token tm).2.tokens = tm.tokens := by
  simp only [get_next_token]
  split_ifs <;> rfl

theorem gnt_blacklisted_eq (tm : TokenManager) :
    (get_next_token tm).2.blacklisted_tokens = tm.blacklisted_tokens := by
  simp only [get_next_token]
  split_ifs <;> rfl

theorem gnt_some_not_blacklisted {tm : TokenManager} {u : String}
    (h : (get_next_token tm).1 = some u) : u ∉ tm.blacklisted_tokens := by
  simp only [get_next_token] at h
  split_ifs at h with h1 h2 h3
  · simp only [Option.some.injEq] at h
    have hne : nonBlacklistedTokens tm ≠ [] := by
      simpa [List.isEmpty_iff] using h3
    have hmem : u ∈ nonBlacklistedTokens tm := by
      rw [← h]
      exact getD_mod_mem hne tm.current_index
    exact (mem_nonBlacklistedTokens.mp hmem).2
  · simp only [Option.some.injEq] at h
    have hne : availableTokens tm ≠ [] := by
      simpa [List.isEmpty_iff] using h2
    have hmem : u ∈ availableTokens tm := by
      rw [← h]
      exact getD_mod_mem hne tm.current_index
    exact (mem_availableTokens.mp hmem).2.2

theorem gntIter_blacklisted_eq (n : Nat) (tm : TokenManager) :
    (gntIter tm n).blacklisted_tokens = tm.blacklisted_tokens := by
  induction n generalizing tm with
  | zero => rfl
  | succ m ih => rw [gntIter, ih, gntState, gnt_blacklisted_eq]

theorem gnt_failed_cases (tm : TokenManager) :
    (get_next_token tm).2.failed_tokens = tm.failed_tokens
      ∨ (get_next_token tm).2.failed_tokens = ∅ := by
  simp only [get_next_token]
  split_ifs <;> simp

/-! ## Claim theorems about the token pool -/

/-- C6: starting from a fresh `TokenManager` holding exactly
`sk-a, sk-b, sk-c` in file order, with no failures or blacklistings,
three successive `get_next_token` calls return `sk-a`, `sk-b`, `sk-c` in
that order and the cursor advances 1, 2, 3; in general, whenever the
availability filter is nonempty, the call returns its entry at index
`current_index % length` and increments the cursor by one. -/
theorem round_robin_order :
    ((get_next_token (gntIter threeTokenPool 0)).1 = some "sk-a"
      ∧ (get_next_token (gntIter threeTokenPool 1)).1 = some "sk-b"
      ∧ (get_next_token (gntIter threeTokenPool 2)).1 = some "sk-c"
      ∧ (gntIter threeTokenPool 1).current_index = 1
      ∧ (gntIter threeTokenPool 2).current_index = 2
      ∧ (gntIter threeTokenPool 3).current_index = 3)
    ∧ ∀ tm : TokenManager, availableTokens tm ≠ [] →
        (get_next_token tm).1 =
          some ((availableTokens tm).getD
            (tm.current_index % (availableTokens tm).length) "")
        ∧ (get_next_token tm).2.current_index = tm.current_index + 1 := by
  constructor
  · exact ⟨by decide, by decide, by decide, by decide, by decide, by decide⟩
  · intro tm h
    have htok : tm.tokens.isEmpty = false := by
      cases htk : tm.tokens.isEmpty
      · rfl
      · exact absurd (by simp [availableTokens, List.isEmpty_iff.mp htk]) h
    have hav : (availableTokens tm).isEmpty = false := by
      cases hv : (availableTokens tm).isEmpty
      · rfl
      · exact absurd (List.isEmpty_iff.mp hv) h
    constructor <;> simp [get_next_token, htok, hav]

/-- C6 witness: the general round-robin conjunct evaluated on the concrete
three-token pool. -/
theorem round_robin_order_witness :
    availableTokens threeTokenPool ≠ []
    ∧ (get_next_token threeTokenPool).1 =
        some ((availableTokens threeTokenPool).getD
          (threeTokenPool.current_index % (availableTokens threeTokenPool).length) "")
    ∧ (get_next_token threeTokenPool).2.current_index =
        threeTokenPool.current_index + 1 :=
  ⟨by decide, round_robin_order.2 threeTokenPool (by decide)⟩

/-- C8: `blacklist_token` is idempotent: blacklisting the same token twice
leaves exactly the observable pool state (tokens, cursor, failed and
blacklisted sets) of blacklisting it once, and the call on an
already-blacklisted token is a no-op returning the state unchanged (the
early-return guard fires before any mutation). -/
theorem blacklist_token_idempotent (tm : TokenManager) (t : String) :
    blacklist_token (blacklist_token tm t) t = blacklist_token tm t
    ∧ (t ∈ tm.blacklisted_tokens → blacklist_token tm t = tm) := by
  constructor
  · by_cases h : t ∈ tm.blacklisted_tokens
    · simp [blacklist_token, h]
    · simp [blacklist_token, h]
  · intro h
    simp [blacklist_token, h]

/-- C8 witness: blacklisting an already-blacklisted token leaves the state
untouched. -/
theorem blacklist_token_idempotent_witness :
    "sk-a" ∈ (⟨["sk-b"], 0, ∅, {"sk-a"}⟩ : TokenManager).blacklisted_tokens
    ∧ blacklist_token ⟨["sk-b"], 0, ∅, {"sk-a"}⟩ "sk-a"
        = (⟨["sk-b"], 0, ∅, {"sk-a"}⟩ : TokenManager) :=
  ⟨by decide, (blacklist_token_idempotent ⟨["sk-b"], 0, ∅, {"sk-a"}⟩ "sk-a").2 (by decide)⟩

/-- C2 (amended): `get_next_token` never returns a blacklisted token; when
the pool is nonempty, every loaded token is temporarily failed and none is
blacklisted, the call clears `failed_tokens` and returns a token; and it
returns `None` exactly when no non-blacklisted loaded token remains. -/
theorem get_next_token_exhaustion (tm : TokenManager) :
    (∀ u, (get_next_token tm).1 = some u → u ∉ tm.blacklisted_tokens)
    ∧ (tm.tokens ≠ [] →
        (∀ t ∈ tm.tokens, t ∈ tm.failed_tokens) →
        (∀ t ∈ tm.tokens, t ∉ tm.blacklisted_tokens) →
        ((get_next_token tm).1.isSome = true
          ∧ (get_next_token tm).2.failed_tokens = ∅))
    ∧ ((get_next_token tm).1 = none ↔ nonBlacklistedTokens tm = []) := by
  refine ⟨fun u h => gnt_some_not_blacklisted h, ?_, ?_⟩
  · intro hne hfail hnb
    have hav : availableTokens tm = [] := by
      rw [availableTokens, List.filter_eq_nil_iff]
      intro a ha
      simp [hfail a ha]
    have hnbl : nonBlacklistedTokens tm = tm.tokens :=
      List.filter_eq_self.mpr (fun a ha => by simp [hnb a ha])
    have htok : tm.tokens.isEmpty = false := by
      cases htk : tm.tokens.isEmpty
      · rfl
      · exact absurd (List.isEmpty_iff.mp htk) hne
    have havE : (availableTokens tm).isEmpty = true := by rw [hav]; rfl
    have hnblE : (nonBlacklistedTokens tm).isEmpty = false := by rw [hnbl, htok]
    constructor <;> simp [get_next_token, htok, havE, hnblE]
  · cases htk : tm.tokens.isEmpty
    · cases hv : (availableTokens tm).isEmpty
      · have hne : availableTokens tm ≠ [] := by
          simpa [List.isEmpty_iff] using hv
        have hnbne : nonBlacklistedTokens tm ≠ [] := by
          rcases List.exists_mem_of_ne_nil _ hne with ⟨a, ha⟩
          have := mem_availableTokens.mp ha
          exact List.ne_nil_of_mem
            (mem_nonBlacklistedTokens.mpr ⟨this.1, this.2.2⟩)
        simp [get_next_token, htk, hv, hnbne]
      · cases hv2 : (nonBlacklistedTokens tm).isEmpty
        · have : nonBlacklistedTokens tm ≠ [] := by
            simpa [List.isEmpty_iff] using hv2
          simp [get_next_token, htk, hv, hv2, this]
        · simp [get_next_token, htk, hv, hv2, List.isEmpty_iff.mp hv2]
    · have htnil : tm.tokens = [] := List.isEmpty_iff.mp htk
      simp [get_next_token, htk, nonBlacklistedTokens, htnil]

/-- C2 counterexample: the claim as stated fails on the reachable state
where the only loaded token has been blacklisted: the token list is empty,
so every loaded token is (vacuously) in `failed_tokens` and none is
blacklisted, yet `get_next_token` returns `None` instead of a token. -/
theorem get_next_token_empty_pool_counterexample :
    (blacklist_token (freshManager ∅ ["sk-a"]) "sk-a").tokens = []
    ∧ (get_next_token (blacklist_token (freshManager ∅ ["sk-a"]) "sk-a")).1
        = none := by
  decide

/-- C2 witness: a one-token pool whose token is temporarily failed is
forgiven and served again. -/
theorem get_next_token_exhaustion_witness :
    (get_next_token ⟨["sk-a"], 0, {"sk-a"}, ∅⟩).1.isSome = true
    ∧ (get_next_token ⟨["sk-a"], 0, {"sk-a"}, ∅⟩).2.failed_tokens = ∅ :=
  (get_next_token_exhaustion _).2.1 (by decide) (by decide) (by decide)

/-- C1 (amended): blacklisting a pooled token `t` that is not already
blacklisted and occurs only once in the token list removes it from
`tokens`, removes it from `failed_tokens`, adds it to
`blacklisted_tokens`, and no later `get_next_token` call ever returns `t`
again, however many calls are made (so also after exhaustion resets of the
temporary-failure set). -/
theorem blacklist_token_permanent (tm : TokenManager) (t : String)
    (_hmem : t ∈ tm.tokens) (hcount : tm.tokens.count t ≤ 1)
    (hnb : t ∉ tm.blacklisted_tokens) :
    t ∉ (blacklist_token tm t).tokens
    ∧ t ∉ (blacklist_token tm t).failed_tokens
    ∧ t ∈ (blacklist_token tm t).blacklisted_tokens
    ∧ ∀ n, (get_next_token (gntIter (blacklist_token tm t) n)).1 ≠ some t := by
  have hb : blacklist_token tm t =
      { tm with
        blacklisted_tokens := insert t tm.blacklisted_tokens
        tokens := tm.tokens.erase t
        failed_tokens := tm.failed_tokens.erase t } := by
    simp [blacklist_token, hnb]
  refine ⟨?_, ?_, ?_, ?_⟩
  · rw [hb]
    intro hc
    have h1 : 0 < (tm.tokens.erase t).count t := List.count_pos_iff.mpr hc
    rw [List.count_erase_self] at h1
    omega
  · rw [hb]
    exact Finset.not_mem_erase t _
  · rw [hb]
    exact Finset.mem_insert_self t _
  · intro n hsome
    have hblk := gnt_some_not_blacklisted hsome
    rw [gntIter_blacklisted_eq] at hblk
    apply hblk
    rw [hb]
    exact Finset.mem_insert_self t _

/-- C1 counterexample: the claim as stated fails when a token was loaded
twice (duplicate account lines): `blacklist_token` removes only the first
occurrence from the list, so the token is still present in `tokens`
afterwards. -/
theorem blacklist_token_duplicate_counterexample :
    "sk-a" ∈ (freshManager ∅ ["sk-a", "sk-a"]).tokens
    ∧ "sk-a" ∈ (blacklist_token (freshManager ∅ ["sk-a", "sk-a"]) "sk-a").tokens := by
  decide

/-- C1 witness: blacklisting `sk-a` out of a fresh two-token pool. -/
theorem blacklist_token_permanent_witness :
    "sk-a" ∉ (blacklist_token (freshManager ∅ ["sk-a", "sk-b"]) "sk-a").tokens
    ∧ "sk-a" ∉ (blacklist_token (freshManager ∅ ["sk-a", "sk-b"]) "sk-a").failed_tokens
    ∧ "sk-a" ∈ (blacklist_token (freshManager ∅ ["sk-a", "sk-b"]) "sk-a").blacklisted_tokens
    ∧ (get_next_token
        (gntIter (blacklist_token (freshManager ∅ ["sk-a", "sk-b"]) "sk-a") 4)).1
        ≠ some "sk-a" := by
  have h := blacklist_token_permanent (freshManager ∅ ["sk-a", "sk-b"]) "sk-a"
    (by decide) (by decide) (by decide)
  exact ⟨h.1, h.2.1, h.2.2.1, h.2.2.2 4⟩

/-- C10: `get_stats` reports `total_loaded_tokens` as the current length of
the mutable token list (so it drops by one when a loaded, not-yet
blacklisted token is blacklisted, rather than recording the number ever
loaded), and `available_tokens` as the count of tokens in neither
`failed_tokens` nor `blacklisted_tokens`. -/
theorem get_stats_loaded_count (tm : TokenManager) (t : String) :
    (get_stats tm).total_loaded_tokens = tm.tokens.length
    ∧ (get_stats tm).available_tokens =
        (tm.tokens.filter (fun u =>
          decide (u ∉ tm.failed_tokens ∧ u ∉ tm.blacklisted_tokens))).length
    ∧ (t ∈ tm.tokens → t ∉ tm.blacklisted_tokens →
        (get_stats (blacklist_token tm t)).total_loaded_tokens
          = (get_stats tm).total_loaded_tokens - 1) := by
  refine ⟨rfl, rfl, ?_⟩
  intro hmem hnb
  simp [get_stats, blacklist_token, hnb, List.length_erase_of_mem hmem]

/-- C10 witness: blacklisting one of two loaded tokens drops the reported
total from 2 to 1. -/
theorem get_stats_loaded_count_witness :
    "sk-a" ∈ (freshManager ∅ ["sk-a", "sk-b"]).tokens
    ∧ (get_stats (blacklist_token (freshManager ∅ ["sk-a", "sk-b"]) "sk-a")).total_loaded_tokens
        = (get_stats (freshManager ∅ ["sk-a", "sk-b"])).total_loaded_tokens - 1 :=
  ⟨by decide, (get_stats_loaded_count (freshManager ∅ ["sk-a", "sk-b"]) "sk-a").2.2
    (by decide) (by decide)⟩

/-- Intermediate invariant step for C7: a valid operation sequence keeps
`failed_tokens` and `blacklisted_tokens` disjoint. -/
theorem validOps_disjoint (ops : List PoolOp) :
    ∀ tm : TokenManager,
      tm.failed_tokens ∩ tm.blacklisted_tokens = ∅ →
      validOps tm ops = true →
      (applyOps tm ops).failed_tokens ∩ (applyOps tm ops).blacklisted_tokens = ∅ := by
  induction ops with
  | nil => intro tm h _; exact h
  | cons op rest ih =>
    intro tm h hv
    simp only [validOps, Bool.and_eq_true] at hv
    refine ih (applyOp tm op) ?_ hv.2
    cases op with
    | next =>
      show (gntState tm).failed_tokens ∩ (gntState tm).blacklisted_tokens = ∅
      simp only [gntState]
      rw [gnt_blacklisted_eq]
      rcases gnt_failed_cases tm with hf | hf <;> rw [hf]
      · exact h
      · exact Finset.empty_inter _
    | fail t =>
      have ht : t ∉ tm.blacklisted_tokens := by simpa using hv.1
      show (mark_token_failed tm t).failed_tokens
        ∩ (mark_token_failed tm t).blacklisted_tokens = ∅
      rw [mark_token_failed]
      exact (Finset.insert_inter_of_not_mem ht).trans h
    | black t =>
      by_cases hb : t ∈ tm.blacklisted_tokens
      · have : applyOp tm (.black t) = tm := by simp [applyOp, blacklist_token, hb]
        rw [this]
        exact h
      · have hrec : applyOp tm (.black t) =
            { tm with
              blacklisted_tokens := insert t tm.blacklisted_tokens
              tokens := tm.tokens.erase t
              failed_tokens := tm.failed_tokens.erase t } := by
          simp [applyOp, blacklist_token, hb]
        rw [hrec]
        apply Finset.eq_empty_iff_forall_not_mem.mpr
        intro x hx
        rw [Finset.mem_inter, Finset.mem_erase, Finset.mem_insert] at hx
        rcases hx with ⟨⟨hxne, hxf⟩, rfl | hxb⟩
        · exact hxne rfl
        · exact Finset.eq_empty_iff_forall_not_mem.mp h x
            (Finset.mem_inter.mpr ⟨hxf, hxb⟩)

/-- C7 (amended): over any finite sequence of pool operations on a freshly
loaded pool in which `mark_token_failed` is only applied to tokens not
currently blacklisted (as `proxy_request` does: it only marks tokens just
handed out by `get_next_token`), the intersection of `failed_tokens` and
`blacklisted_tokens` stays empty. -/
theorem pool_ops_disjoint (bl : Finset String) (toks : List String)
    (ops : List PoolOp) (hv : validOps (freshManager bl toks) ops = true) :
    (applyOps (freshManager bl toks) ops).failed_tokens
      ∩ (applyOps (freshManager bl toks) ops).blacklisted_tokens = ∅ :=
  validOps_disjoint ops _ (Finset.empty_inter _) hv

/-- C7 counterexample: the claim as stated fails for operation sequences
with arbitrary arguments: blacklisting a token and then calling
`mark_token_failed` on that same token puts it into both sets at once
(`mark_token_failed` performs no blacklist check). -/
theorem pool_ops_disjoint_counterexample :
    (applyOps (freshManager ∅ ["sk-a"]) [.black "sk-b", .fail "sk-b"]).failed_tokens
      ∩ (applyOps (freshManager ∅ ["sk-a"]) [.black "sk-b", .fail "sk-b"]).blacklisted_tokens
      ≠ ∅ := by
  decide

/-! ## Dictionary lemmas for `_prepare_headers` -/

theorem dget_eq_none {d : HDict} {k : String} (h : ∀ q ∈ d, q.1 ≠ k) :
    dget d k = none := by
  have hf : d.find? (fun p => p.1 == k) = none :=
    List.find?_eq_none.mpr (fun x hx => by simp [h x hx])
  rw [dget, hf]
  rfl

theorem dmem_eq_false {d : HDict} {k : String} (h : ∀ q ∈ d, q.1 ≠ k) :
    dmem d k = false := by
  rw [dmem, List.any_eq_false]
  intro x hx
  simp [h x hx]

theorem dmem_of_dget {d : HDict} {k v : String} (h : dget d k = some v) :
    dmem d k = true := by
  rw [dget] at h
  rcases hf : d.find? (fun p => p.1 == k) with _ | q
  · rw [hf] at h
    simp at h
  · have h1 := List.mem_of_find?_eq_some hf
    have h2 := List.find?_some hf
    rw [dmem, List.any_eq_true]
    exact ⟨q, h1, h2⟩

theorem find?_map_comm (d : HDict) (f : String × String → String × String)
    (pr : String × String → Bool) (hf : ∀ q, pr (f q) = pr q) :
    (d.map f).find? pr = (d.find? pr).map f := by
  induction d with
  | nil => rfl
  | cons q rest ih =>
    rw [List.map_cons]
    by_cases hq : pr q = true
    · rw [List.find?_cons_of_pos _ (by rw [hf]; exact hq), List.find?_cons_of_pos _ hq]
      rfl
    · rw [List.find?_cons_of_neg _ (by rw [hf]; simpa using hq),
        List.find?_cons_of_neg _ (by simpa using hq)]
      exact ih

theorem dget_dset_self (d : HDict) (k v : String) :
    dget (dset d k v) k = some v := by
  have hf : ∀ q : String × String,
      ((if q.1 == k then (q.1, v) else q).1 == k) = (q.1 == k) := by
    intro q
    split_ifs <;> rfl
  rw [dset]
  split_ifs with hm
  · rw [dget, find?_map_comm _ _ _ hf]
    rcases hf2 : d.find? (fun p => p.1 == k) with _ | q
    · have hnone : ∀ x ∈ d, ¬((fun p : String × String => p.1 == k) x = true) :=
        List.find?_eq_none.mp hf2
      rw [dmem, List.any_eq_true] at hm
      rcases hm with ⟨x, hx, hpx⟩
      exact absurd hpx (hnone x hx)
    · have hq := List.find?_some hf2
      simp only at hq
      have he : q.1 = k := beq_iff_eq.mp hq
      rw [hf2]
      simp [he]
  · rw [dget, List.find?_append]
    rcases hf2 : d.find? (fun p => p.1 == k) with _ | q
    · rw [hf2]
      simp
    · have h1 := List.mem_of_find?_eq_some hf2
      have h2 := List.find?_some hf2
      have hdm : dmem d k = true := by
        rw [dmem, List.any_eq_true]
        exact ⟨q, h1, h2⟩
      rw [hdm] at hm
      simp at hm

theorem dget_dset_ne (d : HDict) {k k' : String} (v : String) (hk : k ≠ k') :
    dget (dset d k' v) k = dget d k := by
  have hf : ∀ q : String × String,
      ((if q.1 == k' then (q.1, v) else q).1 == k) = (q.1 == k) := by
    intro q
    split_ifs <;> rfl
  rw [dset]
  split_ifs with hm
  · rw [dget, find?_map_comm _ _ _ hf, dget]
    rcases hf2 : d.find? (fun p => p.1 == k) with _ | q
    · rw [hf2]
      rfl
    · have hq := List.find?_some hf2
      simp only at hq
      have hne : q.1 ≠ k' := by
        rw [beq_iff_eq.mp hq]
        exact hk
      rw [hf2]
      simp [hne]
  · rw [dget, List.find?_append, dget]
    have hsingle : ([(k', v)] : HDict).find? (fun p => p.1 == k) = none := by
      simp [beq_eq_false_iff_ne.mpr (Ne.symm hk)]
    rw [hsingle, Option.or_none]

theorem dmem_dset_ne (d : HDict) {k k' : String} (v : String) (hk : k ≠ k') :
    dmem (dset d k' v) k = dmem d k := by
  rw [dset]
  split_ifs with hm
  · rw [dmem, dmem, List.any_map]
    congr 1
    funext q
    show ((if q.1 == k' then (q.1, v) else q).1 == k) = (q.1 == k)
    split_ifs <;> rfl
  · rw [dmem, dmem, List.any_append]
    have : ([(k', v)] : HDict).any (fun p => p.1 == k) = false := by
      simp [beq_eq_false_iff_ne.mpr (Ne.symm hk)]
    rw [this, Bool.or_false]

theorem dmem_dset_self (d : HDict) (k v : String) :
    dmem (dset d k v) k = true := by
  rw [dset]
  split_ifs with hm
  · rw [dmem, List.any_map]
    have he : ((fun p : String × String => p.1 == k)
          ∘ (fun p : String × String => if p.1 == k then (p.1, v) else p))
        = (fun p : String × String => p.1 == k) := by
      funext q
      show ((if q.1 == k then (q.1, v) else q).1 == k) = (q.1 == k)
      split_ifs <;> rfl
    rw [he]
    rw [dmem] at hm
    exact hm
  · rw [dmem, List.any_append]
    simp

theorem dget_filter (d : HDict) (pr : String × String → Bool) (k : String)
    (hq : ∀ p : String × String, p.1 = k → pr p = true) :
    dget (d.filter pr) k = dget d k := by
  induction d with
  | nil => rfl
  | cons p rest ih =>
    rw [List.filter_cons]
    by_cases hp : (p.1 == k) = true
    · rw [hq p (beq_iff_eq.mp hp), if_pos rfl]
      simp only [dget]
      have e1 := @List.find?_cons_of_pos _ (fun q : String × String => q.1 == k)
        p (List.filter pr rest) hp
      have e2 := @List.find?_cons_of_pos _ (fun q : String × String => q.1 == k)
        p rest hp
      rw [e1, e2]
    · cases hpp : pr p
      · rw [if_neg Bool.false_ne_true]
        simp only [dget] at ih ⊢
        rw [List.find?_cons_of_neg _ (by simpa using hp)]
        exact ih
      · rw [if_pos rfl]
        simp only [dget] at ih ⊢
        rw [List.find?_cons_of_neg _ (by simpa using hp),
          List.find?_cons_of_neg _ (by simpa using hp)]
        exact ih

theorem dmem_filter (d : HDict) (pr : String × String → Bool) (k : String)
    (hq : ∀ p : String × String, p.1 = k → pr p = true) :
    dmem (d.filter pr) k = dmem d k := by
  induction d with
  | nil => rfl
  | cons p rest ih =>
    rw [List.filter_cons]
    by_cases hp : (p.1 == k) = true
    · rw [hq p (beq_iff_eq.mp hp), if_pos rfl]
      simp [dmem, List.any_cons, hp]
    · have hp' : (p.1 == k) = false := by simpa using hp
      cases hpp : pr p
      · rw [if_neg Bool.false_ne_true]
        simp only [dmem, List.any_cons] at ih ⊢
        rw [hp', ih, Bool.false_or]
      · rw [if_pos rfl]
        simp only [dmem, List.any_cons] at ih ⊢
        rw [hp', ih]

theorem dget_ensure_user_agent_ne (h : HDict) {k : String} (hk : k ≠ "User-Agent") :
    dget (ensure_user_agent h) k = dget h k := by
  rw [ensure_user_agent]
  split_ifs with hm
  · exact dget_dset_ne _ _ hk
  · rfl

theorem dget_ensure_accept_ne (h : HDict) {k : String} (hk : k ≠ "Accept") :
    dget (ensure_accept h) k = dget h k := by
  rw [ensure_accept]
  split_ifs with hm hm2
  · exact dget_dset_ne _ _ hk
  · exact dget_dset_ne _ _ hk
  · rfl

theorem dmem_ensure_accept_ne (h : HDict) {k : String} (hk : k ≠ "Accept") :
    dmem (ensure_accept h) k = dmem h k := by
  rw [ensure_accept]
  split_ifs with hm hm2
  · exact dmem_dset_ne _ _ hk
  · exact dmem_dset_ne _ _ hk
  · rfl

/-! ## Lemmas about the proxy retry loop -/

theorem proxy_loop_not_auth (up : Nat → String → Option Nat) (mr : Nat) :
    ∀ (fuel attempt : Nat) (tm : TokenManager),
      resultStatus (proxy_loop up mr fuel attempt tm).1 ≠ 401
        ∧ resultStatus (proxy_loop up mr fuel attempt tm).1 ≠ 403 := by
  intro fuel
  induction fuel with
  | zero =>
    intro attempt tm
    simp [proxy_loop, resultStatus]
  | succ n ih =>
    intro attempt tm
    simp only [proxy_loop]
    rcases hg : get_next_token tm with ⟨o, tm1⟩
    cases o with
    | none => simp [resultStatus]
    | some token =>
      dsimp only
      rcases hu : up attempt token with _ | status
      · dsimp only
        split_ifs
        · simp [resultStatus]
        · exact ih _ _
      · dsimp only
        split_ifs with h1 h2 h3 h4
        · simp [resultStatus]
        · exact ih _ _
        · exact ih _ _
        · refine ⟨?_, ?_⟩
          · intro hc
            rw [resultStatus] at hc
            exact h2 (Or.inl hc)
          · intro hc
            rw [resultStatus] at hc
            exact h2 (Or.inr hc)
        · exact ih _ _

theorem proxy_loop_all_failures (up : Nat → String → Option Nat) (mr : Nat)
    (hup : ∀ i t s, up i t = some s → s = 401 ∨ s = 403 ∨ s = 429) :
    ∀ (fuel attempt : Nat) (tm : TokenManager),
      resultStatus (proxy_loop up mr fuel attempt tm).1 = 503 := by
  intro fuel
  induction fuel with
  | zero =>
    intro attempt tm
    simp [proxy_loop, resultStatus]
  | succ n ih =>
    intro attempt tm
    simp only [proxy_loop]
    rcases hg : get_next_token tm with ⟨o, tm1⟩
    cases o with
    | none => simp [resultStatus]
    | some token =>
      dsimp only
      rcases hu : up attempt token with _ | status
      · dsimp only
        split_ifs
        · simp [resultStatus]
        · exact ih _ _
      · dsimp only
        rcases hup attempt token status hu with h | h | h
        · rw [if_neg (by omega), if_pos (Or.inl h), ]
          exact ih _ _
        · rw [if_neg (by omega), if_pos (Or.inr h)]
          exact ih _ _
        · rw [if_neg (by omega), if_neg (by omega), if_pos h]
          exact ih _ _

theorem proxy_loop_propagation (up : Nat → String → Option Nat) (mr : Nat) :
    ∀ (fuel attempt : Nat) (tm : TokenManager),
      resultStatus (proxy_loop up mr fuel attempt tm).1 = 200
      ∨ resultStatus (proxy_loop up mr fuel attempt tm).1 = 503
      ∨ ∃ t s, up (mr - 1) t = some s
          ∧ resultStatus (proxy_loop up mr fuel attempt tm).1 = s
          ∧ s ≠ 200 ∧ s ≠ 401 ∧ s ≠ 403 ∧ s ≠ 429 := by
  intro fuel
  induction fuel with
  | zero =>
    intro attempt tm
    simp [proxy_loop, resultStatus]
  | succ n ih =>
    intro attempt tm
    simp only [proxy_loop]
    rcases hg : get_next_token tm with ⟨o, tm1⟩
    cases o with
    | none => simp [resultStatus]
    | some token =>
      dsimp only
      rcases hu : up attempt token with _ | status
      · dsimp only
        split_ifs
        · simp [resultStatus]
        · exact ih _ _
      · dsimp only
        split_ifs with h1 h2 h3 h4
        · simp [resultStatus]
        · exact ih _ _
        · exact ih _ _
        · refine Or.inr (Or.inr ⟨token, status, ?_, rfl, h1, ?_, ?_, h3⟩)
          · rw [← h4]
            exact hu
          · intro hc
            exact h2 (Or.inl hc)
          · intro hc
            exact h2 (Or.inr hc)
        · exact ih _ _

/-- C3: over every run of the retry loop, a 401 or 403 status is never
surfaced to the caller; when a 401/403 response arrives, the selected
token is blacklisted and the loop continues with the next attempt; when
every upstream response of every attempt is 401, 403 or 429, the run ends
in the 503 service-unavailable exception; and the only statuses the caller
can observe are 200, 503, or a generic upstream status (not 200, 401, 403
or 429) produced on the final attempt and propagated verbatim. -/
theorem proxy_request_auth_handling (up : Nat → String → Option Nat)
    (mr : Nat) (tm : TokenManager) :
    (resultStatus (proxy_request up mr tm).1 ≠ 401
      ∧ resultStatus (proxy_request up mr tm).1 ≠ 403)
    ∧ ((∀ i t s, up i t = some s → s = 401 ∨ s = 403 ∨ s = 429) →
        resultStatus (proxy_request up mr tm).1 = 503)
    ∧ (resultStatus (proxy_request up mr tm).1 = 200
        ∨ resultStatus (proxy_request up mr tm).1 = 503
        ∨ ∃ t s, up (mr - 1) t = some s
            ∧ resultStatus (proxy_request up mr tm).1 = s
            ∧ s ≠ 200 ∧ s ≠ 401 ∧ s ≠ 403 ∧ s ≠ 429)
    ∧ (∀ (fuel attempt : Nat) (tmx tm2 : TokenManager) (token : String) (s : Nat),
        get_next_token tmx = (some token, tm2) →
        up attempt token = some s →
        (s = 401 ∨ s = 403) →
        proxy_loop up mr (fuel + 1) attempt tmx
          = proxy_loop up mr fuel (attempt + 1) (blacklist_token tm2 token)) := by
  refine ⟨proxy_loop_not_auth up mr mr 0 tm, fun hup =>
    proxy_loop_all_failures up mr hup mr 0 tm,
    proxy_loop_propagation up mr mr 0 tm, ?_⟩
  intro fuel attempt tmx tm2 token s hg hu hs
  simp only [proxy_loop, hg, hu]
  rw [if_neg (by omega), if_pos hs]

/-- C3 witness: a pool whose upstream always answers 429 exhausts the two
attempts and the run raises 503; a 401 answer takes the blacklist-and
continue branch. -/
theorem proxy_request_auth_handling_witness :
    resultStatus (proxy_request (fun _ _ => some 429) 2 threeTokenPool).1 = 503
    ∧ proxy_loop (fun _ _ => some 401) 3 3 0 threeTokenPool
        = proxy_loop (fun _ _ => some 401) 3 2 1
            (blacklist_token (get_next_token threeTokenPool).2 "sk-a") :=
  ⟨(proxy_request_auth_handling (fun _ _ => some 429) 2 threeTokenPool).2.1
      (fun _ _ s hs => Or.inr (Or.inr (Option.some.inj hs).symm)),
   (proxy_request_auth_handling (fun _ _ => some 401) 3 threeTokenPool).2.2.2
      2 0 threeTokenPool (get_next_token threeTokenPool).2 "sk-a" 401
      (by decide) rfl (Or.inl rfl)⟩

/-- C5 (amended): `_prepare_headers` strips exactly the eight listed
hop-by-hop headers case-insensitively, but its Accept and User-Agent
presence checks look up the exact lowercase keys: on the lowercase inbound
dictionary `host`, `connection`, `accept: text/plain` (the form the route
handler passes in), the result drops host and connection, keeps the
original `accept` entry and maps key `Accept` to
`text/plain, text/event-stream`; when no `accept` key exists, `Accept` is
set to `application/json, text/event-stream`; when an `accept` value
exists without the substring `text/event-stream`, `Accept` is set to that
value with `, text/event-stream` appended; and a default `User-Agent` is
added exactly when no lowercase `user-agent` key exists: in that case the
result always holds a `User-Agent` entry with the default value, while
with a `user-agent` key present the third block is skipped, the entry is
preserved unchanged and the presence of a `User-Agent` key is exactly that
of the input. -/
theorem prepare_headers_spec :
    (prepare_headers
        [("host", "example.com"), ("connection", "keep-alive"), ("accept", "text/plain")]
      = [("accept", "text/plain"), ("Accept", "text/plain, text/event-stream"),
         ("User-Agent", "MCP-Proxy/1.0.0")])
    ∧ (∀ (d : HDict) (k : String), skip_headers.contains (pyLower k) = true →
        dget (prepare_headers d) k = none)
    ∧ (∀ d : HDict, (∀ q ∈ d, q.1 ≠ "accept") →
        dget (prepare_headers d) "Accept" = some "application/json, text/event-stream")
    ∧ (∀ (d : HDict) (a : String), dget d "accept" = some a →
        strContains a "text/event-stream" = false →
        dget (prepare_headers d) "Accept" = some (a ++ ", text/event-stream"))
    ∧ (∀ d : HDict, (∀ q ∈ d, q.1 ≠ "user-agent") →
        dget (prepare_headers d) "User-Agent" = some "MCP-Proxy/1.0.0")
    ∧ (∀ d : HDict, dmem d "user-agent" = true →
        dget (prepare_headers d) "user-agent" = dget d "user-agent")
    ∧ (∀ d : HDict, dmem (prepare_headers d) "User-Agent"
        = if dmem d "user-agent" = true then dmem d "User-Agent" else true) := by
  refine ⟨by decide, ?_, ?_, ?_, ?_, ?_, ?_⟩
  · intro d k hk
    have hkA : k ≠ "Accept" := by
      rintro rfl
      revert hk
      decide
    have hkU : k ≠ "User-Agent" := by
      rintro rfl
      revert hk
      decide
    rw [prepare_headers, dget_ensure_user_agent_ne _ hkU, dget_ensure_accept_ne _ hkA]
    apply dget_eq_none
    intro q hq hqk
    have hmem := List.mem_filter.mp hq
    rw [hqk, hk] at hmem
    simp at hmem
  · intro d hd
    have h1 : ∀ q ∈ forward_headers d, q.1 ≠ "accept" := by
      intro q hq
      exact hd q (List.mem_filter.mp hq).1
    have hmem : dmem (forward_headers d) "accept" = false := dmem_eq_false h1
    rw [prepare_headers, dget_ensure_user_agent_ne _ (by decide)]
    simp [ensure_accept, hmem, dget_dset_self]
  · intro d a ha hno
    have hfa : dget (forward_headers d) "accept" = dget d "accept" := by
      apply dget_filter
      intro p hp
      rw [hp]
      decide
    have hfa2 : dget (forward_headers d) "accept" = some a := hfa.trans ha
    have hm : dmem (forward_headers d) "accept" = true := dmem_of_dget hfa2
    rw [prepare_headers, dget_ensure_user_agent_ne _ (by decide)]
    simp [ensure_accept, hm, hfa2, hno, dget_dset_self]
  · intro d hd
    have h1 : ∀ q ∈ forward_headers d, q.1 ≠ "user-agent" := by
      intro q hq
      exact hd q (List.mem_filter.mp hq).1
    have hm1 : dmem (forward_headers d) "user-agent" = false := dmem_eq_false h1
    have hm2 : dmem (ensure_accept (forward_headers d)) "user-agent" = false := by
      rw [dmem_ensure_accept_ne _ (by decide), hm1]
    rw [prepare_headers]
    simp [ensure_user_agent, hm2, dget_dset_self]
  · intro d hm
    have hf : dmem (forward_headers d) "user-agent" = dmem d "user-agent" := by
      apply dmem_filter
      intro p hp
      rw [hp]
      decide
    have hm2 : dmem (ensure_accept (forward_headers d)) "user-agent" = true := by
      rw [dmem_ensure_accept_ne _ (by decide), hf, hm]
    have hget : dget (forward_headers d) "user-agent" = dget d "user-agent" := by
      apply dget_filter
      intro p hp
      rw [hp]
      decide
    rw [prepare_headers]
    simp only [ensure_user_agent, hm2, Bool.not_true]
    rw [if_neg Bool.false_ne_true, dget_ensure_accept_ne _ (by decide), hget]
  · intro d
    have hfP : dmem (forward_headers d) "user-agent" = dmem d "user-agent" := by
      apply dmem_filter
      intro p hp
      rw [hp]
      decide
    have hfU : dmem (forward_headers d) "User-Agent" = dmem d "User-Agent" := by
      apply dmem_filter
      intro p hp
      rw [hp]
      decide
    have haP : dmem (ensure_accept (forward_headers d)) "user-agent"
        = dmem d "user-agent" := by
      rw [dmem_ensure_accept_ne _ (by decide), hfP]
    have haU : dmem (ensure_accept (forward_headers d)) "User-Agent"
        = dmem d "User-Agent" := by
      rw [dmem_ensure_accept_ne _ (by decide), hfU]
    rw [prepare_headers, ensure_user_agent, haP]
    cases hm : dmem d "user-agent"
    · rw [Bool.not_false, if_pos rfl, if_neg Bool.false_ne_true]
      exact dmem_dset_self _ _ _
    · rw [Bool.not_true, if_neg Bool.false_ne_true, if_pos rfl]
      exact haU

/-- C5 counterexample: the claim as stated fails on the literal
capitalized inbound dictionary: the code checks for the exact lowercase
key `accept`, treats the capitalized `Accept: text/plain` entry as absent,
and overwrites it with `application/json, text/event-stream` instead of
appending `, text/event-stream`. -/
theorem prepare_headers_case_counterexample :
    dget (prepare_headers
        [("Host", "example.com"), ("Connection", "keep-alive"), ("Accept", "text/plain")])
      "Accept" = some "application/json, text/event-stream"
    ∧ dget (prepare_headers
        [("Host", "example.com"), ("Connection", "keep-alive"), ("Accept", "text/plain")])
      "Accept" ≠ some "text/plain, text/event-stream" := by
  decide

/-- C5 witness: the strip conjunct evaluated on a concrete dictionary with
a capitalized `Connection` header. -/
theorem prepare_headers_spec_witness :
    skip_headers.contains (pyLower "Connection") = true
    ∧ dget (prepare_headers [("Connection", "keep-alive"), ("accept", "text/plain")])
        "Connection" = none :=
  ⟨by decide, prepare_headers_spec.2.1
    [("Connection", "keep-alive"), ("accept", "text/plain")] "Connection" (by decide)⟩

/-- C4: `load_tokens` loads exactly the non-blank lines that split on `|`
into at least three fields with an `sk-`-prefixed last field not in the
loaded blacklist, in file order (`filterMap` over the lines); every other
line is skipped without aborting; zero qualifying tokens raise the fatal
`ValueError`. -/
theorem load_tokens_filter (bl : Finset String) (lines : List String) :
    (∀ line t, parse_account_line bl line = some t ↔
        (pyStrip line ≠ ""
          ∧ 3 ≤ (pySplitOnPipe (pyStrip line)).length
          ∧ t = (pySplitOnPipe (pyStrip line)).getLastD ""
          ∧ pyStartsWith t "sk-" = true
          ∧ t ∉ bl))
    ∧ (∀ ts, load_tokens bl lines = Except.ok ts ↔
        (ts = lines.filterMap (parse_account_line bl) ∧ ts ≠ []))
    ∧ ((∃ e, load_tokens bl lines = Except.error e) ↔
        lines.filterMap (parse_account_line bl) = []) := by
  refine ⟨?_, ?_, ?_⟩
  · intro line t
    simp only [parse_account_line]
    split_ifs with h1 h2 h3 h4
    · simp [h1]
    · constructor
      · intro h
        simp at h
      · rintro ⟨-, -, rfl, -, hnb⟩
        exact absurd h4 hnb
    · constructor
      · intro h
        simp only [Option.some.injEq] at h
        subst h
        exact ⟨h1, h2, rfl, h3, h4⟩
      · rintro ⟨-, -, rfl, -, -⟩
        rfl
    · constructor
      · intro h
        simp at h
      · rintro ⟨-, -, rfl, hs, -⟩
        exact absurd hs h3
    · constructor
      · intro h
        simp at h
      · rintro ⟨-, hlen, -, -, -⟩
        exact absurd hlen h2
  · intro ts
    simp only [load_tokens]
    split_ifs with h
    · constructor
      · intro h'
        exact absurd h' (by simp)
      · rintro ⟨rfl, hne⟩
        exact absurd (List.isEmpty_iff.mp h) hne
    · constructor
      · intro h'
        simp only [Except.ok.injEq] at h'
        subst h'
        refine ⟨rfl, fun hnil => h ?_⟩
        rw [hnil]
        rfl
      · rintro ⟨rfl, -⟩
        rfl
  · simp only [load_tokens]
    split_ifs with h
    · simp [List.isEmpty_iff.mp h]
    · constructor
      · rintro ⟨e, he⟩
        exact absurd he (by simp)
      · intro h'
        exact (h (by rw [h']; rfl)).elim

/-- C4 witness: a four-line accounts file with one qualifying line loads
exactly that token; the malformed, blank and non-`sk-` lines are
skipped. -/
theorem load_tokens_filter_witness :
    load_tokens ∅ ["user|pw|sk-abc", "malformed", "", "u|p|tok"]
      = Except.ok ["sk-abc"] :=
  ((load_tokens_filter ∅ ["user|pw|sk-abc", "malformed", "", "u|p|tok"]).2.1
    ["sk-abc"]).mpr ⟨by decide, by decide⟩

/-- C7 witness: a valid three-operation sequence keeps the two sets
disjoint. -/
theorem pool_ops_disjoint_witness :
    validOps (freshManager ∅ ["sk-a"]) [.next, .fail "sk-a", .black "sk-a"] = true
    ∧ (applyOps (freshManager ∅ ["sk-a"]) [.next, .fail "sk-a", .black "sk-a"]).failed_tokens
        ∩ (applyOps (freshManager ∅ ["sk-a"]) [.next, .fail "sk-a", .black "sk-a"]).blacklisted_tokens
        = ∅ :=
  ⟨by decide, pool_ops_disjoint ∅ ["sk-a"] _ (by decide)⟩

/-- C9 (amended): a request body parsing to a JSON object with method
`ping` and id 7 is answered directly with HTTP 200 and body
`{"jsonrpc":"2.0","id":7,"result":{}}`; method `notifications/initialized`
is answered with an empty-body HTTP 202; any other method value, an object
without a string method, a non-object value, or a UTF-8 body that is not
valid JSON falls through to normal upstream proxying; a body that is not
valid UTF-8, however, raises `UnicodeDecodeError` past the inner `except`
tuple and the outer handler answers HTTP 500 instead of proxying. -/
theorem special_request_dispatch :
    (∀ fields, jget fields "method" = some (.str "ping") →
        jget fields "id" = some (.num 7) →
        handle_special (.parsed (.obj fields))
          = .json 200 (.obj [("jsonrpc", .str "2.0"), ("id", .num 7),
              ("result", .obj [])]))
    ∧ (∀ fields, jget fields "method" = some (.str "notifications/initialized") →
        handle_special (.parsed (.obj fields)) = .empty 202)
    ∧ handle_special .notJson = .proxied
    ∧ (∀ fields m, jget fields "method" = some (.str m) →
        m ≠ "ping" → m ≠ "notifications/initialized" →
        handle_special (.parsed (.obj fields)) = .proxied)
    ∧ (∀ fields, jget fields "method" = none →
        handle_special (.parsed (.obj fields)) = .proxied)
    ∧ (∀ v : Jv, (∀ fields, v ≠ .obj fields) → handle_special (.parsed v) = .proxied)
    ∧ handle_special .notUtf8 = .httpError 500 := by
  refine ⟨?_, ?_, rfl, ?_, ?_, ?_, rfl⟩
  · intro fields hm hid
    simp [handle_special, hm, hid]
  · intro fields hm
    simp [handle_special, hm]
  · intro fields m hm h1 h2
    simp [handle_special, hm, h1, h2]
  · intro fields hm
    simp [handle_special, hm]
  · intro v hv
    cases v with
    | obj fields => exact absurd rfl (hv fields)
    | null => rfl
    | bool b => rfl
    | num n => rfl
    | str s => rfl
    | arr elems => rfl

/-- C9 counterexample: the claim as stated fails for an unparseable body
that is not valid UTF-8 (for example the single byte `0xff`):
`body.decode('utf-8')` raises `UnicodeDecodeError`, which the inner
`except (json.JSONDecodeError, KeyError, AttributeError)` does not catch,
so the outer `except Exception` raises `HTTPException(500)` and the
request is not proxied. -/
theorem special_request_nonutf8_counterexample :
    handle_special .notUtf8 = .httpError 500
    ∧ handle_special .notUtf8 ≠ .proxied :=
  ⟨rfl, fun h => RouteResponse.noConfusion h⟩

/-- C9 witness: the concrete ping and initialized bodies. -/
theorem special_request_dispatch_witness :
    handle_special (.parsed (.obj [("method", .str "ping"), ("id", .num 7)]))
      = .json 200 (.obj [("jsonrpc", .str "2.0"), ("id", .num 7), ("result", .obj [])])
    ∧ handle_special (.parsed (.obj [("method", .str "notifications/initialized")]))
      = .empty 202 :=
  ⟨special_request_dispatch.1 [("method", .str "ping"), ("id", .num 7)] rfl rfl,
   special_request_dispatch.2.1 [("method", .str "notifications/initialized")] rfl⟩

end Variflight
